import Mathlib

/-!
Verification of the financial-dashboard watchlist core: a shallow embedding
of the stock service (quote cache, payload validation, price history), the
rate limiter, and the watchlist state operations of the `useStockData` hook,
together with theorems about their behaviour.

Conventions of the embedding:
* JavaScript `Date` values are epoch milliseconds, modelled as `Int`.
* Nullable / optional fields are `Option`.
* JavaScript `Array.slice(-n)` is `sliceNeg`.
* Asynchronous operations are split into their synchronous state
  transformations; the network is an oracle passed in as parameters
  (HTTP status, parsed payload, resolved company name).
-/

/-- JavaScript `arr.slice(-n)` for a natural `n`: the last `n` elements
(`slice(-0)` is the whole array). -/
def sliceNeg (l : List α) (n : Nat) : List α :=
  if n = 0 then l else l.drop (l.length - n)

/-- JavaScript `s.toUpperCase()` (character-wise upper casing). -/
def jsToUpperCase (s : String) : String :=
  String.mk (s.data.map Char.toUpper)

/-- JavaScript `s.startsWith(pre)`. -/
def jsStartsWith (s pre : String) : Bool :=
  List.isPrefixOf pre.data s.data

/-- One chart sample, from `types/index.ts` (`PricePoint`). -/
structure PricePoint where
  timestamp : Int
  price : Int
  change : Int
  changePercent : Int
deriving DecidableEq, Repr

/-- One watchlist entry, from `types/index.ts` (`Stock`). -/
structure Stock where
  symbol : String
  companyName : String
  currentPrice : Option Int
  change : Option Int
  changePercent : Option Int
  dayHigh : Option Int
  dayLow : Option Int
  dayOpen : Option Int
  previousClose : Option Int
  lastUpdated : Int
  isLoading : Bool
  error : Option String
  priceHistory : List PricePoint
deriving DecidableEq, Repr

/-- `stockService.createPricePoint` (stockService.ts): builds a sample from
the stock's current fields, defaulting missing numerics to 0 (`x || 0`). -/
def createPricePoint (now : Int) (stock : Stock) : PricePoint :=
  { timestamp := now
    price := stock.currentPrice.getD 0
    change := stock.change.getD 0
    changePercent := stock.changePercent.getD 0 }

/-- `stockService.addPriceToHistory` (stockService.ts): appends one new
sample and keeps the last `maxPoints` samples (`slice(-maxPoints)`).
The source default for `maxPoints` is 288. -/
def addPriceToHistory (now : Int) (stock : Stock) (maxPoints : Nat := 288) : Stock :=
  { stock with
      priceHistory := sliceNeg (stock.priceHistory ++ [createPricePoint now stock]) maxPoints }

/-- Calendar day of an epoch-millisecond timestamp (day index). -/
def calendarDay (t : Int) : Int :=
  Int.ediv t 86400000

/-! ### Quote service (stockService.ts) -/

/-- Parsed Finnhub quote payload (`FinnhubQuoteResponse`); `none` models a
JSON `null` field. -/
structure FinnhubQuoteResponse where
  c : Option Int
  d : Option Int
  dp : Option Int
  h : Option Int
  l : Option Int
  o : Option Int
  pc : Option Int
deriving DecidableEq, Repr

/-- `validateResponse` (stockService.ts): maps the HTTP status to an error
message (401/403 key error, 429 rate limit, other non-2xx network error),
`none` when the response is ok. -/
def validateResponseErr (status : Nat) (symbol : String) : Option String :=
  if status = 401 ∨ status = 403 then
    some ("API_KEY_ERROR:" ++ symbol ++ ": Invalid or expired API key")
  else if status = 429 then
    some ("RATE_LIMIT:" ++ symbol ++ ": API quota exceeded")
  else if ¬ (200 ≤ status ∧ status ≤ 299) then
    some ("NETWORK_ERROR:" ++ symbol ++ ": Failed to fetch data for " ++ symbol)
  else none

/-- `validateStockData` (stockService.ts, cache variant): collects the
missing quote fields (`c` zero or null, `d` null, `dp` null) and produces
the `INVALID_SYMBOL` error message when any are missing. -/
def validateStockData (data : FinnhubQuoteResponse) (symbol : String) : Option String :=
  let missingFields : List String :=
    (if data.c = some 0 ∨ data.c = none then ["currentPrice (c)"] else []) ++
    (if data.d = none then ["change (d)"] else []) ++
    (if data.dp = none then ["changePercent (dp)"] else [])
  if 0 < missingFields.length then
    some ("INVALID_SYMBOL:" ++ symbol ++ ": Missing required fields: " ++
      String.intercalate ", " missingFields)
  else none

/-- One `quoteCache` slot of the cache variant of stockService.ts:
the stored Stock with both the fetch and the cache timestamp. -/
structure CacheEntry where
  data : Stock
  fetchTimestamp : Int
  cacheTimestamp : Int
deriving DecidableEq, Repr

/-- `QUOTE_CACHE_DURATION` (stockService.ts). -/
def QUOTE_CACHE_DURATION : Int := 30000

deriving instance DecidableEq for Except

/-- Result of one `getQuote` call: the returned Stock or thrown error
message, the cache slot for the symbol afterwards, and whether a network
request for the quote was issued. -/
structure QuoteResult where
  result : Except String Stock
  cache : Option CacheEntry
  networkRequest : Bool
deriving DecidableEq, Repr

/-- The Stock record that the fetch path of `getQuote` builds from a
validated payload (`rawCompanyName` is the oracle for `getCompanyName`). -/
def fetchedStock (now : Int) (symbol : String) (data : FinnhubQuoteResponse)
    (rawCompanyName : String) : Stock :=
  { symbol := jsToUpperCase symbol
    companyName := if rawCompanyName = symbol then symbol else rawCompanyName
    currentPrice := data.c
    change := data.d
    changePercent := data.dp
    dayHigh := data.h
    dayLow := data.l
    dayOpen := data.o
    previousClose := data.pc
    lastUpdated := now
    isLoading := false
    error := none
    priceHistory := [] }

/-- The fetch path of `getQuote` (cache variant of stockService.ts): checks
the API key, the HTTP status and the payload, builds the Stock and stores
it in the cache with `fetchTimestamp = cacheTimestamp = now`. -/
def getQuoteFetch (now : Int) (symbol : String) (cache : Option CacheEntry)
    (hasApiKey : Bool) (status : Nat) (data : FinnhubQuoteResponse)
    (rawCompanyName : String) : QuoteResult :=
  if hasApiKey = false then
    { result := .error ("API_KEY_ERROR:" ++ symbol ++ ": Missing API key")
      cache := cache
      networkRequest := false }
  else
    match validateResponseErr status symbol with
    | some e => { result := .error e, cache := cache, networkRequest := true }
    | none =>
      match validateStockData data symbol with
      | some e => { result := .error e, cache := cache, networkRequest := true }
      | none =>
        let stock : Stock := fetchedStock now symbol data rawCompanyName
        { result := .ok stock
          cache := some { data := stock, fetchTimestamp := now, cacheTimestamp := now }
          networkRequest := true }

/-- `getQuote` (cache variant of stockService.ts): a cache slot younger than
30 s is a hit and returns the stored Stock with `lastUpdated` set to the
entry's `fetchTimestamp`, issuing no network request; otherwise the fetch
path runs. -/
def getQuote (now : Int) (symbol : String) (cache : Option CacheEntry)
    (hasApiKey : Bool) (status : Nat) (data : FinnhubQuoteResponse)
    (rawCompanyName : String) : QuoteResult :=
  match cache with
  | some cached =>
    if now - cached.cacheTimestamp < QUOTE_CACHE_DURATION then
      { result := .ok { cached.data with lastUpdated := cached.fetchTimestamp }
        cache := some cached
        networkRequest := false }
    else getQuoteFetch now symbol cache hasApiKey status data rawCompanyName
  | none => getQuoteFetch now symbol cache hasApiKey status data rawCompanyName

/-- One `quoteCache` slot of the earlier stockService.ts variant: a single
timestamp. -/
structure CacheEntryV1 where
  data : Stock
  timestamp : Int
deriving DecidableEq, Repr

/-- `getQuote` of the earlier stockService.ts variant: a cache slot younger
than 30 s returns the stored Stock with `lastUpdated` set to now; the fetch
path builds and returns the Stock but never writes the cache (that variant
contains no `quoteCache.set`). -/
def getQuoteV1 (now : Int) (symbol : String) (cache : Option CacheEntryV1)
    (hasApiKey : Bool) (status : Nat) (data : FinnhubQuoteResponse)
    (rawCompanyName : String) : Except String Stock × Option CacheEntryV1 × Bool :=
  match cache with
  | some cached =>
    if now - cached.timestamp < QUOTE_CACHE_DURATION then
      (.ok { cached.data with lastUpdated := now }, cache, false)
    else getQuoteV1Fetch now symbol cache hasApiKey status data rawCompanyName
  | none => getQuoteV1Fetch now symbol cache hasApiKey status data rawCompanyName
where
  getQuoteV1Fetch (now : Int) (symbol : String) (cache : Option CacheEntryV1)
      (hasApiKey : Bool) (status : Nat) (data : FinnhubQuoteResponse)
      (rawCompanyName : String) : Except String Stock × Option CacheEntryV1 × Bool :=
    if hasApiKey = false then
      (.error ("API_KEY_ERROR:" ++ symbol ++ ": Missing API key"), cache, false)
    else
      match validateResponseErr status symbol with
      | some e => (.error e, cache, true)
      | none =>
        if (data.c = some 0 ∧ data.d = none ∧ data.dp = none) ∨
            data.c = none ∨ data.d = none ∨ data.dp = none then
          (.error ("INVALID_SYMBOL:" ++ symbol ++ ": \"" ++ symbol ++
            "\" is not a valid stock symbol"), cache, true)
        else
          let companyName := if rawCompanyName = symbol then symbol else rawCompanyName
          (.ok { symbol := jsToUpperCase symbol
                 companyName := companyName
                 currentPrice := data.c
                 change := data.d
                 changePercent := data.dp
                 dayHigh := data.h
                 dayLow := data.l
                 dayOpen := data.o
                 previousClose := data.pc
                 lastUpdated := now
                 isLoading := false
                 error := none
                 priceHistory := [] }, cache, true)

/-! ### Rate limiter (utils/rate-limiting.ts) -/

/-- `RateLimiter` rejection reasons. -/
inductive RLReason where
  | basic_cooldown
  | burst_protection
  | hourly_limit
deriving DecidableEq, Repr

/-- `RateLimitResult` (utils/rate-limiting.ts). -/
structure RateLimitResult where
  allowed : Bool
  reason : Option RLReason
  waitTime : Option Int
deriving DecidableEq, Repr

/-- `RateLimiter.BASIC_COOLDOWN` (30 s, in ms). -/
def BASIC_COOLDOWN : Int := 30000

/-- `RateLimiter.BURST_LIMIT`. -/
def BURST_LIMIT : Nat := 3

/-- `RateLimiter.BURST_WINDOW` (2 min, in ms). -/
def BURST_WINDOW : Int := 2 * 60 * 1000

/-- `RateLimiter.HOURLY_LIMIT`. -/
def HOURLY_LIMIT : Nat := 20

/-- `RateLimiter.HOURLY_WINDOW` (60 min, in ms). -/
def HOURLY_WINDOW : Int := 60 * 60 * 1000

/-- `Math.ceil(x / 1000)` on integal milliseconds. -/
def ceil1000 (x : Int) : Int :=
  Int.ediv (x + 999) 1000

/-- `RateLimiter.addToRefreshHistory`: appends the timestamp and truncates
the persisted history to the most recent 10 entries (`slice(-10)`). -/
def addToRefreshHistory (history : List Int) (timestamp : Int) : List Int :=
  sliceNeg (history ++ [timestamp]) 10

/-- `RateLimiter.isRefreshAllowed`: evaluates the basic cooldown, burst
protection and hourly limit, in order, against the persisted history,
returning the first violation. -/
def isRefreshAllowed (now : Int) (history : List Int)
    (lastManualRefresh : Option Int) : RateLimitResult :=
  let cooldown : Option RateLimitResult :=
    match lastManualRefresh with
    | some lm =>
      let timeSinceLastRefresh := now - lm
      if timeSinceLastRefresh < BASIC_COOLDOWN then
        some { allowed := false
               reason := some .basic_cooldown
               waitTime := some (ceil1000 (BASIC_COOLDOWN - timeSinceLastRefresh)) }
      else none
    | none => none
  match cooldown with
  | some r => r
  | none =>
    let burstWindowStart := now - BURST_WINDOW
    let recentRefreshes := history.filter (fun t => burstWindowStart < t)
    if BURST_LIMIT ≤ recentRefreshes.length then
      let oldestRecent := recentRefreshes.headD 0
      { allowed := false
        reason := some .burst_protection
        waitTime := some (ceil1000 (BURST_WINDOW - (now - oldestRecent))) }
    else
      let hourlyWindowStart := now - HOURLY_WINDOW
      let hourlyRefreshes := history.filter (fun t => hourlyWindowStart < t)
      if HOURLY_LIMIT ≤ hourlyRefreshes.length then
        let oldestHourly := hourlyRefreshes.headD 0
        { allowed := false
          reason := some .hourly_limit
          waitTime := some (ceil1000 (HOURLY_WINDOW - (now - oldestHourly))) }
      else { allowed := true, reason := none, waitTime := none }

/-- Rule 1 of `isRefreshAllowed` passes: either no previous manual refresh,
or at least 30 s have elapsed since it. -/
def cooldownOk (now : Int) (lastManualRefresh : Option Int) : Bool :=
  match lastManualRefresh with
  | some lm => BASIC_COOLDOWN ≤ now - lm
  | none => true

/-! ### Watchlist state core (hooks/use-stock-data.ts, session-storage variant) -/

/-- `maxWatchlistSize` of the session-storage hook variant. -/
def maxWatchlistSize : Nat := 25

/-- The optimistic placeholder entry that `addStock` inserts. -/
def loadingStock (symbolUpper : String) (now : Int) : Stock :=
  { symbol := symbolUpper
    companyName := "Loading..."
    currentPrice := some 0
    change := some 0
    changePercent := some 0
    dayHigh := some 0
    dayLow := some 0
    dayOpen := some 0
    previousClose := some 0
    lastUpdated := now
    isLoading := true
    error := none
    priceHistory := [] }

/-- The synchronous part of `addStock`: rejects a symbol already present
(after uppercasing) and a full watchlist, otherwise appends the placeholder. -/
def addStock (watchlist : List Stock) (symbol : String) (now : Int) : List Stock :=
  let symbolUpper := jsToUpperCase symbol
  if watchlist.any (fun stock => stock.symbol == symbolUpper) then
    watchlist
  else if maxWatchlistSize ≤ watchlist.length then
    watchlist
  else
    watchlist ++ [loadingStock symbolUpper now]

/-- `removeStock`: drops every entry whose symbol equals the uppercased
argument. -/
def removeStock (watchlist : List Stock) (symbol : String) : List Stock :=
  watchlist.filter (fun stock => stock.symbol != jsToUpperCase symbol)

/-- JavaScript falsiness of the optional `error` field (`!stock.error`):
true when the field is absent or the empty string. -/
def errFalsy : Option String → Bool
  | none => true
  | some s => s.isEmpty

/-- The refresh selection predicate of `performRefresh`
(`!stock.isLoading && (!stock.error || !isManual)`). -/
def refreshSelectable (isManual : Bool) (stock : Stock) : Bool :=
  !stock.isLoading && (errFalsy stock.error || !isManual)

/-- `stocksToRefresh` inside `performRefresh`. -/
def stocksToRefresh (isManual : Bool) (watchlist : List Stock) : List Stock :=
  watchlist.filter (refreshSelectable isManual)

/-- The timeout error message written to stuck entries. -/
def TIMEOUT_MSG : String := "Request timeout - please retry"

/-- The stuck-entry reset of `performRefresh` applied on automatic passes:
an entry loading with `lastUpdated` older than 2 minutes is marked failed
with a timeout error. -/
def stuckFix (now : Int) (stock : Stock) : Stock :=
  if stock.isLoading && decide (stock.lastUpdated < now - 2 * 60 * 1000) then
    { stock with isLoading := false, error := some TIMEOUT_MSG }
  else stock

/-- The synchronous watchlist update of `performRefresh`: on automatic
passes first resets stuck entries, then selects the refreshable entries and
marks every selected entry `isLoading = true` (the asynchronous per-symbol
completions are modelled separately by `refreshSuccessUpdate` and
`handleStockError`). -/
def performRefresh (isManual : Bool) (now : Int) (watchlist : List Stock) : List Stock :=
  let processedWatchlist :=
    if isManual then watchlist else watchlist.map (stuckFix now)
  let toRefresh := stocksToRefresh isManual processedWatchlist
  if toRefresh.length = 0 then
    processedWatchlist
  else
    processedWatchlist.map (fun stock =>
      if toRefresh.any (fun s => s.symbol == stock.symbol) then
        { stock with isLoading := true }
      else stock)

/-- `handleStockError`: an `INVALID_SYMBOL` error removes the entry; every
other error keeps it with `isLoading = false` and `error` set. -/
def handleStockError (watchlist : List Stock) (symbol : String)
    (errorMsg : String) : List Stock :=
  if jsStartsWith errorMsg "INVALID_SYMBOL:" then
    watchlist.filter (fun stock => stock.symbol != symbol)
  else
    watchlist.map (fun stock =>
      if stock.symbol == symbol then
        { stock with isLoading := false, error := some errorMsg }
      else stock)

/-- The entry update applied by the success path of `performRefresh` (and of
`refreshSingleStock` / `retryStock`): the fetched stock keeps the entry's
existing `priceHistory` and one new point is appended. -/
def refreshEntryUpdate (now : Int) (fetched : Stock) (stock : Stock) : Stock :=
  addPriceToHistory now { fetched with priceHistory := stock.priceHistory }

/-- The watchlist update run when a refresh fetch for `symbol` resolves
successfully (`performRefresh`'s promise handler). -/
def refreshSuccessUpdate (now : Int) (watchlist : List Stock) (symbol : String)
    (fetched : Stock) : List Stock :=
  watchlist.map (fun stock =>
    if stock.symbol == symbol then refreshEntryUpdate now fetched stock else stock)

/-- The synchronous start of `retryStock`: the matching entry is marked
loading with its error cleared. -/
def retryStockStart (watchlist : List Stock) (symbolUpper : String) : List Stock :=
  watchlist.map (fun stock =>
    if stock.symbol == symbolUpper then
      { stock with isLoading := true, error := none }
    else stock)

/-- `retryStock`, with the fetch outcome passed as an oracle: the entry is
marked loading, then the success or error completion is applied. -/
def retryStock (watchlist : List Stock) (symbol : String) (now : Int)
    (outcome : Except String Stock) : List Stock :=
  let symbolUpper := jsToUpperCase symbol
  let started := retryStockStart watchlist symbolUpper
  match outcome with
  | .ok fetched => refreshSuccessUpdate now started symbolUpper fetched
  | .error msg => handleStockError started symbolUpper msg

/-- The net per-entry effect of one automatic `performRefresh` pass on a
watchlist with distinct symbols: stuck entries are failed, and every entry
that is then not loading is selected and re-marked loading. -/
def autoEntryStep (now : Int) (stock : Stock) : Stock :=
  let s1 := stuckFix now stock
  if refreshSelectable false s1 then { s1 with isLoading := true } else s1

/-! ### Concrete fixtures used to evaluate the model -/

/-- The `lastUpdated` field of an `ok` result (0 for errors); used to
inspect `getQuote` results on concrete inputs. -/
def exceptLastUpdated : Except String Stock → Int
  | .ok s => s.lastUpdated
  | .error _ => 0

/-- A sample watchlist entry with the given symbol, state flags, timestamp
and history; quote fields are filled with fixed sample values. -/
def mkStock (symbol : String) (isLoading : Bool) (error : Option String)
    (lastUpdated : Int) (priceHistory : List PricePoint := []) : Stock :=
  { symbol := symbol
    companyName := symbol
    currentPrice := some 100
    change := some 2
    changePercent := some 1
    dayHigh := some 110
    dayLow := some 90
    dayOpen := some 95
    previousClose := some 98
    lastUpdated := lastUpdated
    isLoading := isLoading
    error := error
    priceHistory := priceHistory }

/-- A semantically valid quote payload. -/
def qrValid : FinnhubQuoteResponse :=
  { c := some 100, d := some 2, dp := some 1
    h := some 110, l := some 90, o := some 95, pc := some 98 }

/-- The refresh history persisted after 20 manual refreshes spaced 130 s
apart (timestamps 0, 130000, …, 2470000), each recorded through
`addToRefreshHistory`. -/
def c3RecordedHistory : List Int :=
  (List.range 20).foldl (fun h i => addToRefreshHistory h (130000 * (i : Int))) []

/-! ### Helper lemmas -/

theorem sliceNeg_append_singleton (l : List α) (a : α) (n : Nat) (hn : 1 ≤ n) :
    sliceNeg (l ++ [a]) n = l.drop (l.length + 1 - n) ++ [a] := by
  have hne : n ≠ 0 := Nat.one_le_iff_ne_zero.mp hn
  simp only [sliceNeg, hne, if_false, List.length_append, List.length_singleton]
  rw [List.drop_append_eq_append_drop]
  have h0 : l.length + 1 - n - l.length = 0 := by omega
  rw [h0]
  rfl

theorem sliceNeg_length_of_pos (l : List α) (n : Nat) (hn : 1 ≤ n) :
    (sliceNeg l n).length = min l.length n := by
  have hne : n ≠ 0 := Nat.one_le_iff_ne_zero.mp hn
  simp only [sliceNeg, hne, if_false, List.length_drop]
  omega

theorem addPriceToHistory_history (now : Int) (stock : Stock) (maxPoints : Nat)
    (hn : 1 ≤ maxPoints) :
    (addPriceToHistory now stock maxPoints).priceHistory =
      stock.priceHistory.drop (stock.priceHistory.length + 1 - maxPoints)
        ++ [createPricePoint now stock] := by
  simp only [addPriceToHistory]
  exact sliceNeg_append_singleton _ _ _ hn

theorem addPriceToHistory_length (now : Int) (stock : Stock) (maxPoints : Nat)
    (hn : 1 ≤ maxPoints) :
    (addPriceToHistory now stock maxPoints).priceHistory.length =
      min (stock.priceHistory.length + 1) maxPoints := by
  simp only [addPriceToHistory]
  rw [sliceNeg_length_of_pos _ _ hn]
  simp

theorem addPriceToHistory_getLast (now : Int) (stock : Stock) (maxPoints : Nat)
    (hn : 1 ≤ maxPoints) :
    (addPriceToHistory now stock maxPoints).priceHistory.getLast? =
      some (createPricePoint now stock) := by
  rw [addPriceToHistory_history now stock maxPoints hn]
  simp

theorem stuckFix_symbol (now : Int) (s : Stock) : (stuckFix now s).symbol = s.symbol := by
  unfold stuckFix
  split <;> rfl

theorem filter_ne_map_eq (l : List Stock) (up : String) (f : Stock → Stock)
    (h1 : ∀ s : Stock, (s.symbol == up) = false → f s = s)
    (h2 : ∀ s : Stock, (s.symbol == up) = true → ((f s).symbol == up) = true) :
    (l.map f).filter (fun s => s.symbol != up) = l.filter (fun s => s.symbol != up) := by
  induction l with
  | nil => rfl
  | cons a t ih =>
    simp only [List.map_cons, List.filter_cons]
    cases ha : (a.symbol == up) with
    | false =>
      rw [h1 a ha]
      have htrue : (a.symbol != up) = true := by simp [bne, ha]
      rw [if_pos htrue, if_pos htrue, ih]
    | true =>
      have hfa := h2 a ha
      have haf : ¬ ((a.symbol != up) = true) := by simp [bne, ha]
      have hff : ¬ (((f a).symbol != up) = true) := by simp [bne, hfa]
      rw [if_neg hff, if_neg haf, ih]

theorem any_filter_symbol (l : List Stock) (hnd : (l.map Stock.symbol).Nodup)
    (p : Stock → Bool) (x : Stock) (hx : x ∈ l) :
    ((l.filter p).any (fun s => s.symbol == x.symbol)) = p x := by
  cases hpx : p x with
  | true =>
    apply List.any_eq_true.mpr
    exact ⟨x, List.mem_filter.mpr ⟨hx, hpx⟩, by simp⟩
  | false =>
    rw [List.any_eq_false]
    intro r hr
    rcases List.mem_filter.mp hr with ⟨hrl, hpr⟩
    cases hsr : (r.symbol == x.symbol) with
    | false => simp
    | true =>
      have hsym : r.symbol = x.symbol := by
        exact eq_of_beq hsr
      have hrx : r = x := List.inj_on_of_nodup_map hnd hrl hx hsym
      rw [hrx] at hpr
      rw [hpr] at hpx
      cases hpx

theorem refreshSelectable_false (s : Stock) :
    refreshSelectable false s = !s.isLoading := by
  simp [refreshSelectable]

theorem performRefresh_auto_eq (now : Int) (w : List Stock)
    (hnd : (w.map Stock.symbol).Nodup) :
    performRefresh false now w = w.map (autoEntryStep now) := by
  have hpw : ((w.map (stuckFix now)).map Stock.symbol) = w.map Stock.symbol := by
    rw [List.map_map]
    apply List.map_congr_left
    intro a _
    exact stuckFix_symbol now a
  have hnd' : ((w.map (stuckFix now)).map Stock.symbol).Nodup := by
    rw [hpw]; exact hnd
  have htarget : w.map (autoEntryStep now)
      = (w.map (stuckFix now)).map
          (fun x => if refreshSelectable false x then { x with isLoading := true } else x) := by
    rw [List.map_map]
    apply List.map_congr_left
    intro a _
    rfl
  rw [htarget]
  unfold performRefresh
  simp only [Bool.false_eq_true, if_false, stocksToRefresh]
  split
  case isTrue h0 =>
    have hall := List.filter_eq_nil_iff.mp (List.length_eq_zero.mp h0)
    have hid : (w.map (stuckFix now)).map
        (fun x => if refreshSelectable false x then { x with isLoading := true } else x)
        = (w.map (stuckFix now)).map id := by
      apply List.map_congr_left
      intro a ha
      simp only [id_eq]
      exact if_neg (hall a ha)
    rw [hid, List.map_id]
  case isFalse h0 =>
    apply List.map_congr_left
    intro a ha
    rw [any_filter_symbol (w.map (stuckFix now)) hnd' (refreshSelectable false) a ha]

/-! ### Claim theorems -/

/-- C8: for every Stock with priceHistory of length L and every
maxPoints ≥ 1, `addPriceToHistory` returns a Stock whose priceHistory has
length `min (L+1) maxPoints`, with the new point appended at the end, and
the oldest points dropped exactly when `L+1 > maxPoints`. -/
theorem c8_theorem (now : Int) (stock : Stock) (maxPoints : Nat)
    (hn : 1 ≤ maxPoints) :
    (addPriceToHistory now stock maxPoints).priceHistory.length =
        min (stock.priceHistory.length + 1) maxPoints
    ∧ (addPriceToHistory now stock maxPoints).priceHistory.getLast? =
        some (createPricePoint now stock)
    ∧ (stock.priceHistory.length + 1 ≤ maxPoints →
        (addPriceToHistory now stock maxPoints).priceHistory =
          stock.priceHistory ++ [createPricePoint now stock])
    ∧ (maxPoints < stock.priceHistory.length + 1 →
        (addPriceToHistory now stock maxPoints).priceHistory =
          stock.priceHistory.drop (stock.priceHistory.length + 1 - maxPoints)
            ++ [createPricePoint now stock]) := by
  refine ⟨addPriceToHistory_length now stock maxPoints hn,
          addPriceToHistory_getLast now stock maxPoints hn, ?_, ?_⟩
  · intro hle
    rw [addPriceToHistory_history now stock maxPoints hn]
    have h0 : stock.priceHistory.length + 1 - maxPoints = 0 := by omega
    rw [h0, List.drop_zero]
  · intro _
    exact addPriceToHistory_history now stock maxPoints hn

/-- C8 witness: `addPriceToHistory` with `maxPoints = 2` on a stock holding
two samples. -/
theorem c8_witness :
    (1 ≤ 2)
    ∧ (addPriceToHistory 5 (mkStock "AAPL" false none 0 [⟨1, 7, 0, 0⟩, ⟨2, 8, 0, 0⟩]) 2).priceHistory.length
        = min ((mkStock "AAPL" false none 0 [⟨1, 7, 0, 0⟩, ⟨2, 8, 0, 0⟩]).priceHistory.length + 1) 2 :=
  ⟨by decide, (c8_theorem 5 (mkStock "AAPL" false none 0 [⟨1, 7, 0, 0⟩, ⟨2, 8, 0, 0⟩]) 2 (by decide)).1⟩

/-- C5: `addStock` leaves the watchlist unchanged when the uppercased symbol
is already present or the watchlist is at capacity, and it preserves symbol
uniqueness and the length bound. -/
theorem c5_theorem (w : List Stock) (symbol : String) (now : Int) :
    (jsToUpperCase symbol ∈ w.map Stock.symbol → addStock w symbol now = w)
    ∧ (maxWatchlistSize ≤ w.length → addStock w symbol now = w)
    ∧ ((w.map Stock.symbol).Nodup → ((addStock w symbol now).map Stock.symbol).Nodup)
    ∧ (w.length ≤ maxWatchlistSize → (addStock w symbol now).length ≤ maxWatchlistSize) := by
  refine ⟨?_, ?_, ?_, ?_⟩
  · intro hmem
    have hd : (w.any fun stock => stock.symbol == jsToUpperCase symbol) = true := by
      rcases List.mem_map.mp hmem with ⟨s, hs, hsym⟩
      exact List.any_eq_true.mpr ⟨s, hs, by simp [hsym]⟩
    simp only [addStock]
    rw [if_pos hd]
  · intro hcap
    simp only [addStock]
    by_cases hd : (w.any fun stock => stock.symbol == jsToUpperCase symbol) = true
    · rw [if_pos hd]
    · rw [if_neg hd, if_pos hcap]
  · intro hnd
    simp only [addStock]
    by_cases hd : (w.any fun stock => stock.symbol == jsToUpperCase symbol) = true
    · rw [if_pos hd]; exact hnd
    · by_cases hcap : maxWatchlistSize ≤ w.length
      · rw [if_neg hd, if_pos hcap]; exact hnd
      · rw [if_neg hd, if_neg hcap]
        rw [List.map_append, List.nodup_append]
        refine ⟨hnd, List.nodup_singleton _, ?_⟩
        intro a ha hb
        have hup : a = jsToUpperCase symbol := by
          simpa using hb
        subst hup
        rcases List.mem_map.mp ha with ⟨s, hs, hsym⟩
        exact hd (List.any_eq_true.mpr ⟨s, hs, by simp [hsym]⟩)
  · intro hlen
    simp only [addStock]
    by_cases hd : (w.any fun stock => stock.symbol == jsToUpperCase symbol) = true
    · rw [if_pos hd]; exact hlen
    · by_cases hcap : maxWatchlistSize ≤ w.length
      · rw [if_neg hd, if_pos hcap]; exact hlen
      · rw [if_neg hd, if_neg hcap, List.length_append]
        simp only [List.length_singleton]
        omega

/-- C5 witness: adding an already-present symbol to a singleton watchlist
leaves it unchanged. -/
theorem c5_witness :
    (jsToUpperCase "AAPL" ∈ ([mkStock "AAPL" false none 0].map Stock.symbol))
    ∧ addStock [mkStock "AAPL" false none 0] "AAPL" 5 = [mkStock "AAPL" false none 0] :=
  ⟨by decide, (c5_theorem [mkStock "AAPL" false none 0] "AAPL" 5).1 (by decide)⟩

/-- C1 (amended): the automatic pass selects exactly the entries that are
not loading — including previously-failed ones, auto-retrying them — while
the manual pass selects exactly the entries that are not loading and have
no error set. -/
theorem c1_theorem (w : List Stock) (s : Stock) :
    (s ∈ stocksToRefresh false w ↔ s ∈ w ∧ s.isLoading = false)
    ∧ (s ∈ stocksToRefresh true w ↔ s ∈ w ∧ s.isLoading = false ∧ errFalsy s.error = true) := by
  constructor
  · rw [stocksToRefresh, List.mem_filter, refreshSelectable_false]
    simp [Bool.not_eq_true']
  · rw [stocksToRefresh, List.mem_filter]
    simp [refreshSelectable, Bool.not_eq_true']

/-- C1 counterexample: an entry with an error set and not loading is
selected by the automatic pass and is not selected by the manual pass —
the opposite of the claimed asymmetry. -/
theorem c1_counterexample :
    mkStock "AAPL" false (some "NETWORK_ERROR:AAPL: Failed to fetch data for AAPL") 0
      ∈ stocksToRefresh false
          [mkStock "AAPL" false (some "NETWORK_ERROR:AAPL: Failed to fetch data for AAPL") 0]
    ∧ mkStock "AAPL" false (some "NETWORK_ERROR:AAPL: Failed to fetch data for AAPL") 0
      ∉ stocksToRefresh true
          [mkStock "AAPL" false (some "NETWORK_ERROR:AAPL: Failed to fetch data for AAPL") 0] := by
  decide

/-- C4 (amended): the per-entry refresh update appends one point and keeps
the 288 most recent samples; it performs no calendar-day pruning, so while
below capacity every previously stored sample is retained regardless of its
calendar date. -/
theorem c4_theorem (now : Int) (fetched stock : Stock)
    (hlen : stock.priceHistory.length < 288) :
    (refreshEntryUpdate now fetched stock).priceHistory =
      stock.priceHistory
        ++ [createPricePoint now { fetched with priceHistory := stock.priceHistory }]
    ∧ ∀ p ∈ stock.priceHistory, p ∈ (refreshEntryUpdate now fetched stock).priceHistory := by
  have hX : ({ fetched with priceHistory := stock.priceHistory } : Stock).priceHistory
      = stock.priceHistory := rfl
  have h1 : (refreshEntryUpdate now fetched stock).priceHistory =
      stock.priceHistory
        ++ [createPricePoint now { fetched with priceHistory := stock.priceHistory }] := by
    unfold refreshEntryUpdate
    rw [addPriceToHistory_history _ _ 288 (by omega)]
    rw [hX]
    have h0 : stock.priceHistory.length + 1 - 288 = 0 := by omega
    rw [h0, List.drop_zero]
  refine ⟨h1, ?_⟩
  intro p hp
  rw [h1]
  exact List.mem_append_left _ hp

/-- C4 witness: the refresh update on a stock holding one sample. -/
theorem c4_witness :
    ((mkStock "AAPL" false none 0 [⟨0, 100, 0, 0⟩]).priceHistory.length < 288)
    ∧ (refreshEntryUpdate 200000000 (mkStock "AAPL" false none 200000000)
        (mkStock "AAPL" false none 0 [⟨0, 100, 0, 0⟩])).priceHistory
      = (mkStock "AAPL" false none 0 [⟨0, 100, 0, 0⟩]).priceHistory
        ++ [createPricePoint 200000000
            { mkStock "AAPL" false none 200000000 with
                priceHistory := (mkStock "AAPL" false none 0 [⟨0, 100, 0, 0⟩]).priceHistory }] :=
  ⟨by decide,
   (c4_theorem 200000000 (mkStock "AAPL" false none 200000000)
     (mkStock "AAPL" false none 0 [⟨0, 100, 0, 0⟩]) (by decide)).1⟩

/-- C4 counterexample: after a refresh update, the retained history spans
two distinct calendar days, so it is not pruned to the current day and its
entries do not all share the date of the most recent entry. -/
theorem c4_counterexample :
    ((refreshEntryUpdate 200000000 (mkStock "AAPL" false none 200000000)
        (mkStock "AAPL" false none 0 [⟨0, 100, 0, 0⟩])).priceHistory.map
      (fun p => calendarDay p.timestamp)) = [0, 2]
    ∧ (0 : Int) ≠ 2 := by
  decide

/-- C9 (amended): on an automatic pass, a stuck loading entry (loading for
more than 2 minutes) gets its error set to the timeout message but is
immediately re-selected for refresh, so after the pass it has
`isLoading = true` with the timeout error; the failed state
`isLoading = false` exists only transiently inside the pass. Entries loading
for less than 2 minutes are left unchanged. -/
theorem c9_theorem (now : Int) (w : List Stock)
    (hnd : (w.map Stock.symbol).Nodup) :
    performRefresh false now w = w.map (autoEntryStep now)
    ∧ (∀ s : Stock, s.isLoading = true → s.lastUpdated < now - 2 * 60 * 1000 →
        autoEntryStep now s = { s with error := some TIMEOUT_MSG })
    ∧ (∀ s : Stock, s.isLoading = true → ¬ s.lastUpdated < now - 2 * 60 * 1000 →
        autoEntryStep now s = s) := by
  refine ⟨performRefresh_auto_eq now w hnd, ?_, ?_⟩
  · intro s h1 h2
    have hcond : (s.isLoading && decide (s.lastUpdated < now - 2 * 60 * 1000)) = true := by
      rw [h1]
      simp only [Bool.true_and, decide_eq_true_eq]
      omega
    have hs1 : stuckFix now s = { s with isLoading := false, error := some TIMEOUT_MSG } := by
      unfold stuckFix
      rw [if_pos hcond]
    simp only [autoEntryStep]
    rw [hs1]
    have hsel : refreshSelectable false
        { s with isLoading := false, error := some TIMEOUT_MSG } = true := by
      rw [refreshSelectable_false]
      rfl
    rw [if_pos hsel]
    cases s with
    | mk sym cn cp ch chp dh dl dop pc lu il er ph =>
      cases h1
      rfl
  · intro s h1 h2
    have hcond : (s.isLoading && decide (s.lastUpdated < now - 2 * 60 * 1000)) = false := by
      rw [h1]
      simp only [Bool.true_and, decide_eq_false_iff_not]
      omega
    have hs1 : stuckFix now s = s := by
      unfold stuckFix
      rw [if_neg (fun hc => by rw [hcond] at hc; cases hc)]
    simp only [autoEntryStep]
    rw [hs1]
    have hsel : refreshSelectable false s = false := by
      rw [refreshSelectable_false, h1]
      rfl
    rw [if_neg (by simp [hsel])]

/-- C9 witness: an automatic pass at t = 130000 over a watchlist with one
stuck entry (loading since t = 0) and one freshly loading entry. -/
theorem c9_witness :
    (([mkStock "AAPL" true none 0, mkStock "MSFT" true none 121000].map Stock.symbol).Nodup)
    ∧ performRefresh false 130000 [mkStock "AAPL" true none 0, mkStock "MSFT" true none 121000]
        = [mkStock "AAPL" true none 0, mkStock "MSFT" true none 121000].map (autoEntryStep 130000) :=
  ⟨by decide,
   (c9_theorem 130000 [mkStock "AAPL" true none 0, mkStock "MSFT" true none 121000] (by decide)).1⟩

/-- C9 counterexample: an entry loading since t = 0 at an automatic pass at
t = 121000 ends the pass with `isLoading = true` (not `false` as claimed),
with the timeout message in its error field. -/
theorem c9_counterexample :
    (performRefresh false 121000 [mkStock "AAPL" true none 0]).map Stock.isLoading = [true]
    ∧ (performRefresh false 121000 [mkStock "AAPL" true none 0]).map Stock.error
        = [some TIMEOUT_MSG] := by
  decide

/-- C10: `removeStock` keeps exactly the entries whose symbol differs from
the uppercased argument (so it is the identity when the symbol is absent),
and `retryStock` leaves every entry with a different symbol present and
unchanged, whatever the fetch outcome. -/
theorem c10_theorem (w : List Stock) (symbol : String) (now : Int)
    (outcome : Except String Stock)
    (hok : ∀ fetched, outcome = .ok fetched → fetched.symbol = jsToUpperCase symbol) :
    (∀ s : Stock, s ∈ removeStock w symbol ↔ s ∈ w ∧ ¬ s.symbol = jsToUpperCase symbol)
    ∧ (jsToUpperCase symbol ∉ w.map Stock.symbol → removeStock w symbol = w)
    ∧ ((retryStock w symbol now outcome).filter (fun s => s.symbol != jsToUpperCase symbol)
        = w.filter (fun s => s.symbol != jsToUpperCase symbol)) := by
  have hstart : (retryStockStart w (jsToUpperCase symbol)).filter
        (fun s => s.symbol != jsToUpperCase symbol)
      = w.filter (fun s => s.symbol != jsToUpperCase symbol) := by
    apply filter_ne_map_eq
    · intro s hs
      simp [hs]
    · intro s hs
      simp [hs]
  refine ⟨?_, ?_, ?_⟩
  · intro s
    rw [removeStock, List.mem_filter]
    simp [bne]
  · intro hmem
    rw [removeStock]
    apply List.filter_eq_self.mpr
    intro a ha
    have hne : ¬ a.symbol = jsToUpperCase symbol :=
      fun h => hmem (List.mem_map.mpr ⟨a, ha, h⟩)
    simp [bne, hne]
  · cases outcome with
    | ok fetched =>
      have hf := hok fetched rfl
      simp only [retryStock]
      rw [refreshSuccessUpdate]
      rw [filter_ne_map_eq]
      · exact hstart
      · intro s hs
        simp [hs]
      · intro s hs
        simp [refreshEntryUpdate, addPriceToHistory, hs, hf]
    | error msg =>
      simp only [retryStock]
      unfold handleStockError
      by_cases hpre : jsStartsWith msg "INVALID_SYMBOL:" = true
      · rw [if_pos hpre]
        have hidem : ((retryStockStart w (jsToUpperCase symbol)).filter
              (fun stock => stock.symbol != jsToUpperCase symbol)).filter
              (fun s => s.symbol != jsToUpperCase symbol)
            = (retryStockStart w (jsToUpperCase symbol)).filter
              (fun s => s.symbol != jsToUpperCase symbol) := by
          rw [List.filter_filter]
          simp
        rw [hidem]
        exact hstart
      · rw [if_neg hpre]
        rw [filter_ne_map_eq]
        · exact hstart
        · intro s hs
          simp [hs]
        · intro s hs
          simp [hs]

/-- C10 witness: retrying AAPL (successful fetch) on a two-entry watchlist
leaves the MSFT entry untouched. -/
theorem c10_witness :
    (retryStock [mkStock "AAPL" false (some "NETWORK_ERROR:AAPL") 0, mkStock "MSFT" false none 7]
        "AAPL" 5 (.ok (mkStock "AAPL" false none 5))).filter
        (fun s => s.symbol != jsToUpperCase "AAPL")
      = [mkStock "AAPL" false (some "NETWORK_ERROR:AAPL") 0,
         mkStock "MSFT" false none 7].filter (fun s => s.symbol != jsToUpperCase "AAPL") :=
  (c10_theorem [mkStock "AAPL" false (some "NETWORK_ERROR:AAPL") 0, mkStock "MSFT" false none 7]
    "AAPL" 5 (.ok (mkStock "AAPL" false none 5))
    (by intro f hf; injection hf with h; subst h; decide)).2.2

/-- C6: a quote payload with `c = 0`, `d = null`, `dp = null` makes
`getQuote` raise the `INVALID_SYMBOL` error; the error handler removes the
matching watchlist entry entirely for `INVALID_SYMBOL` errors, while every
other error kind keeps the entry present with `isLoading = false` and the
error message set. -/
theorem c6_theorem (now : Int) (sym raw : String) (hh hl ho hpc : Option Int)
    (w : List Stock) (target msg : String) :
    ((getQuote now sym none true 200
        { c := some 0, d := none, dp := none, h := hh, l := hl, o := ho, pc := hpc } raw).result
      = .error ("INVALID_SYMBOL:" ++ sym ++ ": Missing required fields: " ++
          "currentPrice (c), change (d), changePercent (dp)"))
    ∧ (jsStartsWith msg "INVALID_SYMBOL:" = true →
        ∀ s ∈ handleStockError w target msg, ¬ s.symbol = target)
    ∧ (jsStartsWith msg "INVALID_SYMBOL:" = false →
        (handleStockError w target msg).length = w.length
        ∧ ∀ s ∈ handleStockError w target msg, s.symbol = target →
            s.isLoading = false ∧ s.error = some msg) := by
  refine ⟨rfl, ?_, ?_⟩
  · intro hpre s hs
    unfold handleStockError at hs
    rw [if_pos hpre] at hs
    rcases List.mem_filter.mp hs with ⟨_, hcond⟩
    intro heq
    rw [heq] at hcond
    simp [bne] at hcond
  · intro hpre
    unfold handleStockError
    rw [if_neg (by simp [hpre])]
    constructor
    · rw [List.length_map]
    · intro s hs heq
      rcases List.mem_map.mp hs with ⟨t, ht, hteq⟩
      by_cases htc : (t.symbol == target) = true
      · rw [if_pos htc] at hteq
        rw [← hteq]
        exact ⟨rfl, rfl⟩
      · rw [if_neg htc] at hteq
        rw [← hteq] at heq
        exact absurd (by simp [heq]) htc

/-- C6 witness: the raised message is `INVALID_SYMBOL`-prefixed and the
handler removes the AAPL entry from a two-entry watchlist. -/
theorem c6_witness :
    (jsStartsWith
        "INVALID_SYMBOL:AAPL: Missing required fields: currentPrice (c), change (d), changePercent (dp)"
        "INVALID_SYMBOL:" = true)
    ∧ (∀ s ∈ handleStockError [mkStock "AAPL" false none 0, mkStock "MSFT" false none 0] "AAPL"
          "INVALID_SYMBOL:AAPL: Missing required fields: currentPrice (c), change (d), changePercent (dp)",
        ¬ s.symbol = "AAPL") :=
  ⟨by decide,
   (c6_theorem 0 "AAPL" "Apple" none none none none
      [mkStock "AAPL" false none 0, mkStock "MSFT" false none 0] "AAPL"
      "INVALID_SYMBOL:AAPL: Missing required fields: currentPrice (c), change (d), changePercent (dp)").2.1
     (by decide)⟩

/-- C2 (amended): a successful `getQuote` at `t1` stores the fetched Stock
with `fetchTimestamp = cacheTimestamp = t1`; a second call within 30 s
returns that cached Stock without a network request, its `lastUpdated` being
the original fetch time `t1` (not the time of the cache-hit call); a call
30 s or more after the fetch issues a new network request. -/
theorem c2_theorem (t1 t2 : Int) (sym raw1 raw2 : String)
    (data1 data2 : FinnhubQuoteResponse) (status2 : Nat)
    (hvalid : validateStockData data1 sym = none) :
    getQuote t1 sym none true 200 data1 raw1
      = { result := .ok (fetchedStock t1 sym data1 raw1)
          cache := some { data := fetchedStock t1 sym data1 raw1
                          fetchTimestamp := t1, cacheTimestamp := t1 }
          networkRequest := true }
    ∧ (fetchedStock t1 sym data1 raw1).lastUpdated = t1
    ∧ (t2 - t1 < 30000 →
        getQuote t2 sym
            (some { data := fetchedStock t1 sym data1 raw1
                    fetchTimestamp := t1, cacheTimestamp := t1 })
            true status2 data2 raw2
          = { result := .ok (fetchedStock t1 sym data1 raw1)
              cache := some { data := fetchedStock t1 sym data1 raw1
                              fetchTimestamp := t1, cacheTimestamp := t1 }
              networkRequest := false })
    ∧ (30000 ≤ t2 - t1 →
        (getQuote t2 sym
            (some { data := fetchedStock t1 sym data1 raw1
                    fetchTimestamp := t1, cacheTimestamp := t1 })
            true status2 data2 raw2).networkRequest = true) := by
  have h200 : validateResponseErr 200 sym = none := rfl
  refine ⟨?_, rfl, ?_, ?_⟩
  · simp only [getQuote, getQuoteFetch, h200, hvalid]
    rfl
  · intro h30
    simp only [getQuote]
    rw [if_pos (show t2 - t1 < QUOTE_CACHE_DURATION from h30)]
    rfl
  · intro h30
    simp only [getQuote]
    rw [if_neg (by simp only [QUOTE_CACHE_DURATION]; omega)]
    cases hv : validateResponseErr status2 sym with
    | some e => simp [getQuoteFetch, hv]
    | none =>
      cases hv2 : validateStockData data2 sym with
      | some e => simp [getQuoteFetch, hv, hv2]
      | none => simp [getQuoteFetch, hv, hv2]

/-- C2 witness: a successful fetch for AAPL at t = 1000 populates the cache
slot with both timestamps equal to 1000. -/
theorem c2_witness :
    getQuote 1000 "AAPL" none true 200 qrValid "Apple Inc."
      = { result := .ok (fetchedStock 1000 "AAPL" qrValid "Apple Inc.")
          cache := some { data := fetchedStock 1000 "AAPL" qrValid "Apple Inc."
                          fetchTimestamp := 1000, cacheTimestamp := 1000 }
          networkRequest := true } :=
  (c2_theorem 1000 20000 "AAPL" "Apple Inc." "Apple Inc." qrValid qrValid 200 (by decide)).1

/-- C2 counterexample: a cache hit 19 s after the fetch returns a Stock with
`lastUpdated = 1000` (the fetch time), not the call time 20000; and in the
earlier service variant the cache is never populated, so the second call
within 30 s still issues a network request. -/
theorem c2_counterexample :
    exceptLastUpdated
        (getQuote 20000 "AAPL"
          (getQuote 1000 "AAPL" none true 200 qrValid "Apple Inc.").cache
          true 200 qrValid "Apple Inc.").result = 1000
    ∧ (getQuote 20000 "AAPL"
        (getQuote 1000 "AAPL" none true 200 qrValid "Apple Inc.").cache
        true 200 qrValid "Apple Inc.").networkRequest = false
    ∧ (1000 : Int) ≠ 20000
    ∧ (getQuoteV1 20000 "AAPL"
        (getQuoteV1 1000 "AAPL" none true 200 qrValid "Apple Inc.").2.1
        true 200 qrValid "Apple Inc.").2.2 = true := by
  decide

/-- C3: after 20 manual refreshes 130 s apart — all inside the trailing
60-minute window — the persisted history holds only the 10 most recent
timestamps, so the next manual refresh is allowed: the hourly cap of 20 can
never fire on a history recorded through `addToRefreshHistory`. -/
theorem c3_theorem :
    c3RecordedHistory.length = 10
    ∧ (isRefreshAllowed 2500000 c3RecordedHistory (some 2470000)).allowed = true
    ∧ (isRefreshAllowed 2500000 c3RecordedHistory (some 2470000)).reason = none := by
  decide

/-- C7: with the basic cooldown satisfied and a history of at most 10
recorded timestamps, `isRefreshAllowed` rejects with `burst_protection`
(and the wait time until the oldest in-window refresh leaves the 2-minute
window) exactly when at least 3 recorded refreshes fall inside the trailing
2-minute window, and allows the refresh when fewer than 3 do. -/
theorem c7_theorem (now : Int) (history : List Int) (lastManualRefresh : Option Int)
    (hcool : cooldownOk now lastManualRefresh = true)
    (hlen : history.length ≤ 10) :
    (BURST_LIMIT ≤ (history.filter (fun t => now - BURST_WINDOW < t)).length →
        isRefreshAllowed now history lastManualRefresh
          = { allowed := false
              reason := some .burst_protection
              waitTime := some (ceil1000 (BURST_WINDOW -
                (now - (history.filter (fun t => now - BURST_WINDOW < t)).headD 0))) })
    ∧ ((history.filter (fun t => now - BURST_WINDOW < t)).length < BURST_LIMIT →
        isRefreshAllowed now history lastManualRefresh
          = { allowed := true, reason := none, waitTime := none }) := by
  have hfle : (history.filter (fun t => now - HOURLY_WINDOW < t)).length ≤ history.length :=
    List.length_filter_le _ _
  cases lastManualRefresh with
  | none =>
    constructor
    · intro hb
      simp only [isRefreshAllowed]
      rw [if_pos hb]
    · intro hb
      simp only [isRefreshAllowed]
      rw [if_neg (by omega), if_neg (by simp only [HOURLY_LIMIT]; omega)]
  | some lm =>
    have hge : BASIC_COOLDOWN ≤ now - lm := by
      simp only [cooldownOk, decide_eq_true_eq] at hcool
      exact hcool
    have hnot : ¬ (now - lm < BASIC_COOLDOWN) := by omega
    constructor
    · intro hb
      simp only [isRefreshAllowed]
      rw [if_neg hnot, if_pos hb]
    · intro hb
      simp only [isRefreshAllowed]
      rw [if_neg hnot, if_neg (by omega), if_neg (by simp only [HOURLY_LIMIT]; omega)]

/-- C7 witness: three refreshes at 0 s, 40 s and 80 s; a fourth attempt at
115 s (cooldown satisfied) is rejected with `burst_protection`, and an
attempt at 125 s — with only two refreshes left in the 2-minute window —
is allowed. -/
theorem c7_witness :
    isRefreshAllowed 115000 [0, 40000, 80000] (some 80000)
      = { allowed := false
          reason := some .burst_protection
          waitTime := some (ceil1000 (BURST_WINDOW -
            (115000 - ([(0 : Int), 40000, 80000].filter
              (fun t => 115000 - BURST_WINDOW < t)).headD 0))) }
    ∧ isRefreshAllowed 125000 [0, 40000, 80000] (some 80000)
      = { allowed := true, reason := none, waitTime := none } :=
  ⟨(c7_theorem 115000 [0, 40000, 80000] (some 80000) (by decide) (by decide)).1 (by decide),
   (c7_theorem 125000 [0, 40000, 80000] (some 80000) (by decide) (by decide)).2 (by decide)⟩
